import Mathlib

/-!
Verification of the EAS5830 bridge relay (bridge.py, listener.py, gen_keys.py)
against its natural-language specification.

The Python sources are shallowly embedded below.  Addresses, transaction
hashes and uint256 amounts are modelled as `Nat`; RPC calls are modelled as
explicit parameters (`ChainEnv`); Python exceptions are modelled by
`Option`/`Except` results.
-/

namespace Bridge

/-- The two chains; bridge.py `scan_blocks` accepts `'source'` or
`'destination'` (any other string is rejected up front, bridge.py:100-102). -/
inductive Chain
  | source
  | destination
deriving DecidableEq, Repr

/-- The two event kinds the relay watches: `Deposit` on the source chain and
`Unwrap` on the destination chain (bridge.py:140-152). -/
inductive EventKind
  | Deposit
  | Unwrap
deriving DecidableEq, Repr

/-- The two functions the relay can call on the opposite chain
(bridge.py:144, 151; listener.py:75, 82). -/
inductive TargetFn
  | wrap
  | withdraw
deriving DecidableEq, Repr

/-- Which event kind is watched on each chain: bridge.py:140-149 selects
`this_contract.events.Deposit` for `'source'` and `this_contract.events.Unwrap`
for `'destination'` (same selection in listener.py:74, 81). -/
def watchedEvent : Chain → EventKind
  | .source => .Deposit
  | .destination => .Unwrap

/-- Which opposite-chain function is called for each scanned chain:
bridge.py:144 sets `target_fn_name = "wrap"` for `'source'` and
bridge.py:151 sets `target_fn_name = "withdraw"` for `'destination'`
(same in listener.py:75, 82). -/
def targetFn : Chain → TargetFn
  | .source => .wrap
  | .destination => .withdraw

/-- The decoded argument dictionary of a raw log (`evt.args` in the Python
sources): a finite map from field name to value.  Address and uint256 values
are both modelled as `Nat`. -/
structure RawArgs where
  fields : List (String × Nat)
deriving DecidableEq, Repr

/-- `args.get(name)` (bridge.py:206-215): dictionary lookup returning
`None` when the field is absent. -/
def getField (a : RawArgs) (name : String) : Option Nat :=
  a.fields.lookup name

/-- Field extraction for one raw log, bridge.py:204-217 (identically
listener.py:111-124).  For the source chain's `Deposit` the code reads the
fields named exactly `token`, `recipient`, `amount`; for the destination
chain's `Unwrap` it reads exactly `underlying_token`, `to`, `amount`.  There
is no fallback to alternative names: a missing field yields `None`, on which
the subsequent `Web3.to_checksum_address` / `int` call raises (modelled as
`none`). -/
def decodeEvent (chain : Chain) (args : RawArgs) : Option (Nat × Nat × Nat) :=
  match chain with
  | .source =>
      (getField args "token").bind fun token =>
        (getField args "recipient").bind fun recipient =>
          (getField args "amount").bind fun amount =>
            some (token, recipient, amount)
  | .destination =>
      (getField args "underlying_token").bind fun token =>
        (getField args "to").bind fun recipient =>
          (getField args "amount").bind fun amount =>
            some (token, recipient, amount)

/-- An event whose fields have already been extracted successfully, together
with its provenance (`evt.transactionHash`, block number, log index). -/
structure DecodedEvent where
  token : Nat
  recipient : Nat
  amount : Nat
  txHash : Nat
  blockNumber : Nat
  logIndex : Nat
deriving DecidableEq, Repr

/-- The call the relay issues on the opposite chain for one decoded event:
`opp_contract.functions.<target_fn_name>(*call_args)` with
`call_args = (token, recipient, amount)` (bridge.py:209, 216, 220;
listener.py:115-124, 139). -/
def mapAction (c : Chain) (e : DecodedEvent) : TargetFn × Nat × Nat × Nat :=
  (targetFn c, e.token, e.recipient, e.amount)

/-- The opposite chain's RPC responses during one scan cycle, indexed by the
position of the event being processed: `getCount k` is what
`w3_opp.eth.get_transaction_count(from_address)` returns when the k-th event
is processed (bridge.py:233), `gasPrice k` what `w3_opp.eth.gas_price`
returns (bridge.py:249), and `estimateGas k` the result of
`fn(*call_args).estimate_gas(...)` (bridge.py:240, `none` when estimation
raises). -/
structure ChainEnv where
  getCount : Nat → Nat
  gasPrice : Nat → Nat
  estimateGas : Nat → Option Nat

/-- The transaction dictionary built for one event, bridge.py:244-251. -/
structure BuiltTx where
  nonce : Nat
  gas : Nat
  gasPrice : Nat
  token : Nat
  recipient : Nat
  amount : Nat
deriving DecidableEq, Repr

/-- Building the transaction for the k-th event of a cycle,
bridge.py:226-251: the nonce is freshly read from the opposite chain at this
point when a from-address is known and `0` otherwise (bridge.py:227-236);
the gas limit is the gas estimate plus 20000, the estimate falling back to
300000 when estimation raises (bridge.py:239-242, 248); the gas price is the
opposite chain's current gas price (bridge.py:249). -/
def buildTx (env : ChainEnv) (hasFrom : Bool) (k : Nat) (e : DecodedEvent) :
    BuiltTx :=
  { nonce := if hasFrom then env.getCount k else 0
    gas := (env.estimateGas k).getD 300000 + 20000
    gasPrice := env.gasPrice k
    token := e.token
    recipient := e.recipient
    amount := e.amount }

/-- The event-processing loop of one scan cycle, bridge.py:196-283, at the
point where all events decoded: each event in turn is mapped and a
transaction built for it; when `opp_private_key` is present the transaction
is signed and broadcast (bridge.py:261-265), otherwise it is only printed as
a dry run (bridge.py:268-283).  Returns (broadcast transactions, dry-run
transactions).  `hasFrom` is whether a from-address is known
(bridge.py:227); when a key is present the account's address is used, so a
present key implies a known from-address (bridge.py:183-184). -/
def scanCycleTxs (env : ChainEnv) (hasKey hasFrom : Bool)
    (events : List DecodedEvent) : List BuiltTx × List BuiltTx :=
  let built := events.enum.map fun p => buildTx env hasFrom p.1 p.2
  if hasKey then (built, []) else ([], built)

/-- The transactions actually signed and broadcast in one cycle.  In
bridge.py a present key yields `from_address = opp_account.address`
(bridge.py:183-184, 227), so `hasFrom = hasKey` on the broadcast path. -/
def submittedTxs (env : ChainEnv) (hasKey : Bool)
    (events : List DecodedEvent) : List BuiltTx :=
  (scanCycleTxs env hasKey hasKey events).1

/-- The dry-run transactions printed in one cycle (bridge.py:268-283). -/
def dryRunTxs (env : ChainEnv) (hasKey hasFrom : Bool)
    (events : List DecodedEvent) : List BuiltTx :=
  (scanCycleTxs env hasKey hasFrom events).2

/-- The intended actions computed (and printed) for a cycle's events,
one per event, in order (bridge.py:209-217, 271). -/
def plannedActions (c : Chain) (events : List DecodedEvent) :
    List (TargetFn × Nat × Nat × Nat) :=
  events.map (mapAction c)

/-- An engine lifetime: scan cycles run one after another, each over the
events fetched for its window.  No state is carried from one cycle to the
next: bridge.py's `scan_blocks` keeps no variable alive across calls and
consults no seen-set (bridge.py:196-283), so a lifetime's submissions are
just the concatenation of each cycle's submissions. -/
def engineRun (env : ChainEnv) (hasKey : Bool)
    (windows : List (List DecodedEvent)) : List BuiltTx :=
  windows.flatMap (submittedTxs env hasKey)

/-- The block numbers of the inclusive window `[s, e]`, in ascending order
(`range(start_block, end_block + 1)`, listener.py:106). -/
def windowBlocks (s e : Nat) : List Nat :=
  List.range' s (e + 1 - s)

/-- listener.py:106-109 with an infallible per-block fetch: blocks are
scanned one at a time in ascending order and each block's events are
processed in the order the filter returns them. -/
def perBlockScan (fetch : Nat → List DecodedEvent) (s e : Nat) :
    List DecodedEvent :=
  (windowBlocks s e).flatMap fetch

/-- Whether an `Except` result is a success. -/
def exOk {ε α : Type} : Except ε α → Bool
  | .ok _ => true
  | .error _ => false

/-- The per-block fetch loop of listener.py:106-108 over a given block list,
with a fallible fetch.  The loop body
`event_filter = event_obj.create_filter(...); events = event_filter.get_all_entries()`
is not wrapped in any `try`/`except`, so the first raising fetch propagates
out of `scan_blocks` (modelled by the `Except` short-circuit): later blocks
are not scanned and no result is produced. -/
def scanRangeE (fetch : Nat → Except String (List DecodedEvent)) :
    List Nat → Except String (List DecodedEvent)
  | [] => .ok []
  | b :: rest =>
      (fetch b).bind fun evs =>
        (scanRangeE fetch rest).map fun tail => evs ++ tail

/-- listener.py:106-108: scan the inclusive window `[s, e]` block by block
with a fallible fetch. -/
def perBlockScanE (fetch : Nat → Except String (List DecodedEvent))
    (s e : Nat) : Except String (List DecodedEvent) :=
  scanRangeE fetch (windowBlocks s e)

/-- The scan lag: bridge.py:163 scans the last 5 blocks
(`start_block = max(0, latest - 5)`). -/
def scanLag : Int := 5

/-- The window computed by bridge.py:157-164:
`[max(0, latest - 5), latest]`. -/
def bridgeScanWindow (latest : Int) : Int × Int :=
  (max 0 (latest - scanLag), latest)

/-- The window used by listener.py's example invocation (listener.py:161-165):
`scan_blocks(chain, latest - 5, latest)`, with no clamping at 0. -/
def listenerScanWindow (latest : Int) : Int × Int :=
  (latest - scanLag, latest)

/-- Strict ascending blockchain order on events: earlier block, or same
block and earlier log index. -/
def evtLt (x y : DecodedEvent) : Prop :=
  x.blockNumber < y.blockNumber ∨
    (x.blockNumber = y.blockNumber ∧ x.logIndex < y.logIndex)

instance : DecidableRel evtLt := fun x y => by
  unfold evtLt
  infer_instance

/-! Embedding of gen_keys.py.  The cryptographic primitives used by
`sign_message` come from the external `eth_account` library
(`Account.from_key(key).address`, `encode_defunct`, `account.sign_message`,
`Account.recover_message`); the library is not part of this repository, so
the primitives are kept abstract as a parameter record, and the ECDSA
recovery law they satisfy is an explicit hypothesis where needed. -/

/-- The signing primitives gen_keys.py imports from `eth_account`.  A private
key is modelled as the string read from the key file; challenges are byte
strings, modelled as `List Nat`. -/
structure SigScheme (Addr Msg Sig : Type) where
  addressOf : String → Addr
  encode : List Nat → Msg
  sign : String → Msg → Sig
  recover : Msg → Sig → Addr

/-- The two `assert` statements by which gen_keys.py `sign_message` can
raise: the empty-key assert (gen_keys.py:21) and the recover-check assert
(gen_keys.py:36). -/
inductive SignError
  | emptyKey
  | recoverMismatch
deriving DecidableEq, Repr

/-- gen_keys.py:10-39 `sign_message`: `key` is the stripped content of the
key file; an empty key raises (`assert(len(key) > 0)`, gen_keys.py:21);
otherwise the account address is derived from the key (gen_keys.py:30-31),
the challenge is encoded and signed (gen_keys.py:24, 34), the signer is
recovered and compared against the derived address (gen_keys.py:36, raising
on mismatch), and the pair `(signed_message, eth_addr)` is returned
(gen_keys.py:39). -/
def sign_message {Addr Msg Sig : Type} [DecidableEq Addr]
    (S : SigScheme Addr Msg Sig) (challenge : List Nat) (key : String) :
    Except SignError (Sig × Addr) :=
  if key.length = 0 then .error .emptyKey
  else
    let eth_addr := S.addressOf key
    let message := S.encode challenge
    let signed := S.sign key message
    if S.recover message signed = eth_addr then .ok (signed, eth_addr)
    else .error .recoverMismatch

/-- The ECDSA signing law the `eth_account` primitives satisfy: recovering
the signer of a signed message yields the address derived from the signing
key. -/
def SigScheme.RoundTrip {Addr Msg Sig : Type}
    (S : SigScheme Addr Msg Sig) : Prop :=
  ∀ key m, S.recover m (S.sign key m) = S.addressOf key

/-! Concrete sample inputs used by counterexamples and witnesses. -/

/-- The sample Deposit event of the spec scenario: `token=0xAAA`,
`recipient=0xBBB`, `amount=1000` at block 102, log index 0. -/
def e102 : DecodedEvent :=
  { token := 0xAAA, recipient := 0xBBB, amount := 1000
    txHash := 5, blockNumber := 102, logIndex := 0 }

/-- A second sample event at block 103, log index 1. -/
def e103 : DecodedEvent :=
  { token := 0xCCC, recipient := 0xDDD, amount := 2000
    txHash := 6, blockNumber := 103, logIndex := 1 }

/-- Sample RPC responses: transaction count 7, gas price 10, gas estimate
100 for every event. -/
def env0 : ChainEnv :=
  { getCount := fun _ => 7, gasPrice := fun _ => 10
    estimateGas := fun _ => some 100 }

/-- RPC responses of a chain whose reported transaction count stays at 7 for
the whole cycle (no transaction of the account is mined between the
per-event nonce reads) and whose gas estimation raises for every call. -/
def envStale : ChainEnv :=
  { getCount := fun _ => 7, gasPrice := fun _ => 10
    estimateGas := fun _ => none }

/-- A raw Deposit log carrying the canonical source-side field names. -/
def depositArgsCanonical : RawArgs :=
  ⟨[("token", 1), ("recipient", 2), ("amount", 3)]⟩

/-- A raw log carrying the destination-side field names for the same
values. -/
def depositArgsAliased : RawArgs :=
  ⟨[("underlying_token", 1), ("to", 2), ("amount", 3)]⟩

/-- A per-block fetch where block 103 times out and block 102 holds one
event, all other blocks being empty. -/
def fetchWith103Timeout : Nat → Except String (List DecodedEvent) :=
  fun b =>
    if b = 103 then .error "timeout"
    else if b = 102 then .ok [e102] else .ok []

/-- Sample events at positions {block 9, log 5}, {block 10, log 0} and
{block 10, log 1}. -/
def e95 : DecodedEvent :=
  { token := 1, recipient := 2, amount := 3
    txHash := 11, blockNumber := 9, logIndex := 5 }

def e100 : DecodedEvent :=
  { token := 4, recipient := 5, amount := 6
    txHash := 12, blockNumber := 10, logIndex := 0 }

def e101 : DecodedEvent :=
  { token := 7, recipient := 8, amount := 9
    txHash := 13, blockNumber := 10, logIndex := 1 }

/-- A per-block fetch returning the three sample events at their blocks. -/
def fetchOrdered : Nat → List DecodedEvent :=
  fun b => if b = 9 then [e95] else if b = 10 then [e100, e101] else []

/-- A toy instantiation of the signing primitives: the signature records the
key and the message, recovery reads the key back.  It satisfies
`SigScheme.RoundTrip` definitionally. -/
def toyScheme : SigScheme String (List Nat) (String × List Nat) where
  addressOf k := k
  encode c := c
  sign k m := (k, m)
  recover _ s := s.1

/-! General helper lemmas. -/

/-- Unfolding a three-step `Option.bind` chain ending in a triple. -/
theorem bind3_eq_some {α : Type} (x y z : Option α) (t r a : α) :
    (x.bind fun t0 => y.bind fun r0 => z.bind fun a0 => some (t0, r0, a0))
        = some (t, r, a)
      ↔ (x = some t ∧ y = some r ∧ z = some a) := by
  cases x <;> cases y <;> cases z <;> simp

/-- `Except.map` keeps success and failure apart. -/
theorem exOk_map {ε α β : Type} (f : α → β) (r : Except ε α) :
    exOk (r.map f) = exOk r := by
  cases r <;> rfl

/-- If the fetch of one block of the list fails, the per-block scan loop
fails as a whole: listener.py:106-108 wraps no per-block `try`, so the first
raising fetch propagates out of the loop. -/
theorem scanRangeE_mem_error
    (fetch : Nat → Except String (List DecodedEvent)) (b : Nat)
    (hf : exOk (fetch b) = false) :
    ∀ l : List Nat, b ∈ l → exOk (scanRangeE fetch l) = false := by
  intro l
  induction l with
  | nil => intro h; cases h
  | cons x xs ih =>
    intro hl
    cases hx : fetch x with
    | error msg =>
        show exOk ((fetch x).bind _) = false
        rw [hx]
        rfl
    | ok v =>
        have hb : b ∈ xs := by
          rcases List.mem_cons.mp hl with h | h
          · rw [h, hx] at hf
            exact absurd hf (by simp [exOk])
          · exact h
        show exOk ((fetch x).bind _) = false
        rw [hx]
        show exOk (Except.map _ (scanRangeE fetch xs)) = false
        rw [exOk_map]
        exact ih hb

/-- Concatenating per-block event lists in ascending block order yields a
list in strict ascending (block, log index) order, provided every fetched
event carries the block number it was fetched from and each block's events
come sorted by log index. -/
theorem pairwise_evtLt_flatMap (fetch : Nat → List DecodedEvent) :
    ∀ l : List Nat, l.Pairwise (· < ·) →
      (∀ b ∈ l, ∀ ev ∈ fetch b, ev.blockNumber = b) →
      (∀ b ∈ l, (fetch b).Pairwise fun x y => x.logIndex < y.logIndex) →
      (l.flatMap fetch).Pairwise evtLt := by
  intro l
  induction l with
  | nil =>
      intro _ _ _
      simp
  | cons x xs ih =>
    intro hp hblk hsort
    rw [List.flatMap_cons, List.pairwise_append]
    refine ⟨?_, ?_, ?_⟩
    · have h1 := hsort x (List.mem_cons_self x xs)
      have h2 := hblk x (List.mem_cons_self x xs)
      refine h1.imp_of_mem ?_
      intro a b ha hb hab
      exact Or.inr ⟨(h2 a ha).trans (h2 b hb).symm, hab⟩
    · exact ih hp.of_cons
        (fun b hb => hblk b (List.mem_cons_of_mem _ hb))
        (fun b hb => hsort b (List.mem_cons_of_mem _ hb))
    · intro a ha b hb
      obtain ⟨bx, hbx, hbf⟩ := List.mem_flatMap.mp hb
      have hax := hblk x (List.mem_cons_self x xs) a ha
      have hbb := hblk bx (List.mem_cons_of_mem _ hbx) b hbf
      exact Or.inl (by rw [hax, hbb]; exact List.rel_of_pairwise_cons hp hbx)

/-! The claims. -/

/-- Claim C3 (confirmed): the event-to-action mapping is total and pure.
For every decoded event of the kind watched on a chain, the mapped action
calls `wrap` when the kind is `Deposit` and `withdraw` when the kind is
`Unwrap`, and no target other than these two is ever produced. -/
theorem c3_total_mapping (c : Chain) (e : DecodedEvent) :
    (watchedEvent c = EventKind.Deposit →
      (mapAction c e).1 = TargetFn.wrap)
    ∧ (watchedEvent c = EventKind.Unwrap →
      (mapAction c e).1 = TargetFn.withdraw)
    ∧ ((mapAction c e).1 = TargetFn.wrap
        ∨ (mapAction c e).1 = TargetFn.withdraw) := by
  cases c <;> simp [watchedEvent, mapAction, targetFn]

/-- Witness for C3: the mapping evaluated on the sample event for both
chains. -/
theorem c3_total_mapping_witness :
    (mapAction Chain.source e102).1 = TargetFn.wrap
    ∧ (mapAction Chain.destination e102).1 = TargetFn.withdraw :=
  ⟨(c3_total_mapping Chain.source e102).1 rfl,
   (c3_total_mapping Chain.destination e102).2.1 rfl⟩

/-- Claim C5 (confirmed): with no private key for the submission-target
chain, a scan cycle signs and broadcasts nothing — the list of submitted
transactions is empty — while still computing one intended action per
decoded event and building (for display only) one dry-run transaction per
event. -/
theorem c5_dry_run (env : ChainEnv) (hasFrom : Bool) (c : Chain)
    (events : List DecodedEvent) :
    (scanCycleTxs env false hasFrom events).1 = []
    ∧ submittedTxs env false events = []
    ∧ (plannedActions c events).length = events.length
    ∧ (scanCycleTxs env false hasFrom events).2
        = events.enum.map fun p => buildTx env hasFrom p.1 p.2 := by
  refine ⟨rfl, rfl, ?_, rfl⟩
  simp [plannedActions]

/-- Claim C7 is refuted: for the Deposit kind (scanned on the source chain)
a raw log with the canonical names `token`/`recipient`/`amount` decodes,
while a log of the same kind with the names
`underlying_token`/`to`/`amount` fails to decode — there is no alias
fallback, so the two do not decode to structurally identical events.
Symmetrically for the Unwrap kind. -/
theorem c7_counterexample :
    decodeEvent Chain.source depositArgsCanonical = some (1, 2, 3)
    ∧ decodeEvent Chain.source depositArgsAliased = none
    ∧ decodeEvent Chain.destination depositArgsAliased = some (1, 2, 3)
    ∧ decodeEvent Chain.destination depositArgsCanonical = none := by
  refine ⟨rfl, rfl, rfl, rfl⟩

/-- Claim C7 (corrected): field lookup uses one fixed name set per event
kind and nothing else.  A Deposit log decodes exactly when its fields are
named `token`, `recipient`, `amount`; an Unwrap log exactly when its fields
are named `underlying_token`, `to`, `amount`; a field absent under the
kind's own names is never looked up under the other kind's names. -/
theorem c7_amended_no_alias (args : RawArgs) (t r a : Nat) :
    (decodeEvent Chain.source args = some (t, r, a)
      ↔ (getField args "token" = some t
          ∧ getField args "recipient" = some r
          ∧ getField args "amount" = some a))
    ∧ (decodeEvent Chain.destination args = some (t, r, a)
      ↔ (getField args "underlying_token" = some t
          ∧ getField args "to" = some r
          ∧ getField args "amount" = some a)) :=
  ⟨bind3_eq_some _ _ _ t r a, bind3_eq_some _ _ _ t r a⟩

/-- Claim C9 is refuted on the listener: the example invocation
(listener.py:161-165) passes `latest - 5` as the start block with no
clamping at 0, so at `latest = 3` the window is `[-2, 3]`, not
`[max(0, latest - 5), latest] = [0, 3]`. -/
theorem c9_counterexample :
    listenerScanWindow 3 = (-2, 3)
    ∧ (listenerScanWindow 3).1 ≠ max 0 ((3 : Int) - scanLag) := by
  exact ⟨by decide, by decide⟩

/-- Claim C9 (corrected): bridge.py's `scan_blocks` computes the window
`[max(0, latest - 5), latest]` with the lag fixed at 5, and that window has
a non-negative start and is inclusive up to the head; the listener's example
invocation omits the clamp and computes `[latest - 5, latest]`, which agrees
with bridge.py whenever `latest ≥ 5`. -/
theorem c9_amended_window (latest : Int) :
    (bridgeScanWindow latest).1 = max 0 (latest - 5)
    ∧ (bridgeScanWindow latest).2 = latest
    ∧ 0 ≤ (bridgeScanWindow latest).1
    ∧ (0 ≤ latest →
        (bridgeScanWindow latest).1 ≤ (bridgeScanWindow latest).2)
    ∧ (5 ≤ latest → listenerScanWindow latest = bridgeScanWindow latest)
    ∧ scanLag = 5 := by
  refine ⟨rfl, rfl, le_max_left 0 _, ?_, ?_, rfl⟩
  · intro h
    simp only [bridgeScanWindow, scanLag]
    exact max_le h (by omega)
  · intro h
    simp only [listenerScanWindow, bridgeScanWindow, scanLag]
    rw [max_eq_right (by omega)]

/-- Witness for C9: the window at head 100. -/
theorem c9_amended_window_witness :
    (bridgeScanWindow 100).1 ≤ (bridgeScanWindow 100).2
    ∧ listenerScanWindow 100 = bridgeScanWindow 100 :=
  ⟨(c9_amended_window 100).2.2.2.1 (by decide),
   (c9_amended_window 100).2.2.2.2.1 (by decide)⟩

/-- Claim C1 is refuted: scanning a window containing the event `e102` once
submits one transaction, and re-scanning a window containing the very same
`(txHash, logIndex)` pair submits one more — the second scan does not
produce zero new submissions, so the pair is processed twice within one
engine lifetime. -/
theorem c1_counterexample :
    (engineRun env0 true [[e102]]).length = 1
    ∧ (engineRun env0 true [[e102], [e102]]).length = 2
    ∧ engineRun env0 true [[e102], [e102]]
        = submittedTxs env0 true [e102] ++ submittedTxs env0 true [e102] := by
  refine ⟨rfl, rfl, rfl⟩

/-- Claim C1 (corrected): the code keeps no dedup set — no
`(sourceTxHash, logIndex)` pair is checked against any process-wide state.
Every cycle submits one transaction per decoded event in its window,
independently of all earlier cycles, so re-scanning a window containing an
already-processed pair produces the same submissions again. -/
theorem c1_amended_no_dedup (env : ChainEnv) (hasKey : Bool)
    (windows : List (List DecodedEvent)) (w : List DecodedEvent) :
    engineRun env hasKey (windows ++ [w])
      = engineRun env hasKey windows ++ submittedTxs env hasKey w
    ∧ (submittedTxs env true w).length = w.length := by
  constructor
  · simp [engineRun]
  · simp [submittedTxs, scanCycleTxs]

/-- Claim C2 is refuted: with two events in one cycle and a chain whose
reported transaction count stays at 7 between the two per-event nonce reads
(bridge.py:233 reads `get_transaction_count` before every submission), the
nonces used are `[7, 7]` — a repeat — and not `[7, 8]` as the claim
requires. -/
theorem c2_counterexample :
    (submittedTxs envStale true [e102, e103]).map BuiltTx.nonce = [7, 7]
    ∧ (submittedTxs envStale true [e102, e103]).map BuiltTx.nonce
        ≠ [7, 8] := by
  exact ⟨rfl, by decide⟩

/-- Claim C2 (corrected): the nonce is not resynced once per cycle and
incremented locally; it is freshly read from the chain before every single
submission, so the nonce of the k-th submission of a cycle is whatever
transaction count the chain reports at that read — with repeats whenever
the reported count does not advance between submissions. -/
theorem c2_amended_nonce_per_tx (env : ChainEnv)
    (events : List DecodedEvent) :
    (submittedTxs env true events).map BuiltTx.nonce
      = (List.range events.length).map env.getCount := by
  simp only [submittedTxs, scanCycleTxs, if_true, List.map_map]
  rw [← List.enum_map_fst events, List.map_map]
  rfl

/-- Claim C6 is refuted: with gas estimation failing, the submitted
transaction is built with gas limit `300000 + 20000 = 320000`
(bridge.py:239-248), not with the fixed limit 500000 the claim states. -/
theorem c6_counterexample :
    (submittedTxs envStale true [e102]).map BuiltTx.gas = [320000]
    ∧ (submittedTxs envStale true [e102]).map BuiltTx.gas ≠ [500000] := by
  exact ⟨rfl, by decide⟩

/-- Claim C6 (corrected): every submitted transaction is built with gas
limit equal to the estimated gas plus 20000 — 320000 when estimation fails,
since the estimate then falls back to 300000 — and with the gas price the
opposite chain reports when the transaction is built. -/
theorem c6_amended_gas (env : ChainEnv) (events : List DecodedEvent) :
    (submittedTxs env true events).map BuiltTx.gas
      = (List.range events.length).map
          (fun k => (env.estimateGas k).getD 300000 + 20000)
    ∧ (submittedTxs env true events).map BuiltTx.gasPrice
      = (List.range events.length).map env.gasPrice := by
  constructor <;>
  · simp only [submittedTxs, scanCycleTxs, if_true, List.map_map]
    rw [← List.enum_map_fst events, List.map_map]
    rfl

/-- Claim C4 is refuted: with the fetch of block 103 timing out while the
other blocks of the window `[100, 105]` succeed (block 102 holding one
event), the per-block scan fails as a whole — the cycle ends in the error,
and no result reflecting the successful blocks (which alone would have
yielded `[e102]`) is produced. -/
theorem c4_counterexample :
    perBlockScanE fetchWith103Timeout 100 105 = .error "timeout"
    ∧ perBlockScan (fun b => if b = 102 then [e102] else []) 100 105
        = [e102] := by
  exact ⟨rfl, rfl⟩

/-- Claim C4 (corrected): a block-level fetch failure is not caught — the
per-block loop of listener.py:106-108 has no surrounding exception handler,
so the failure of any single block of the window aborts the whole cycle
(and in bridge.py:167-173 the one ranged fetch aborts the cycle with return
value 0 on failure); the logs of the blocks that succeeded are not
reported. -/
theorem c4_amended_fetch_failure_aborts
    (fetch : Nat → Except String (List DecodedEvent)) (s e b : Nat)
    (hb : b ∈ windowBlocks s e) (hf : exOk (fetch b) = false) :
    exOk (perBlockScanE fetch s e) = false :=
  scanRangeE_mem_error fetch b hf (windowBlocks s e) hb

/-- Witness for C4: the window `[100, 105]` with block 103 timing out. -/
theorem c4_amended_witness :
    exOk (perBlockScanE fetchWith103Timeout 100 105) = false :=
  c4_amended_fetch_failure_aborts fetchWith103Timeout 100 105 103
    (by decide) (by decide)

/-- Claim C8 (confirmed): the per-block loop scans blocks in ascending
order and processes each block's events in the order the filter returns
them, so — provided each fetched event carries the block it was fetched
from and each block's events come sorted by log index, as an RPC log filter
returns them — the events of one cycle are processed in strictly ascending
(block number, log index) order, and the cycle's submissions are issued one
per event in exactly that traversal order. -/
theorem c8_order_preservation
    (fetch : Nat → List DecodedEvent) (s e : Nat) (env : ChainEnv)
    (hblk : ∀ b ∈ windowBlocks s e, ∀ ev ∈ fetch b, ev.blockNumber = b)
    (hsort : ∀ b ∈ windowBlocks s e,
      (fetch b).Pairwise fun x y => x.logIndex < y.logIndex) :
    (perBlockScan fetch s e).Pairwise evtLt
    ∧ submittedTxs env true (perBlockScan fetch s e)
        = (perBlockScan fetch s e).enum.map
            fun p => buildTx env true p.1 p.2 := by
  constructor
  · exact pairwise_evtLt_flatMap fetch (windowBlocks s e)
      (List.pairwise_lt_range' s (e + 1 - s)) hblk hsort
  · rfl

/-- Witness for C8: events at {block 9, log 5}, {block 10, log 0},
{block 10, log 1} scanned over the window `[9, 10]`. -/
theorem c8_order_preservation_witness :
    (perBlockScan fetchOrdered 9 10).Pairwise evtLt
    ∧ submittedTxs env0 true (perBlockScan fetchOrdered 9 10)
        = (perBlockScan fetchOrdered 9 10).enum.map
            fun p => buildTx env0 true p.1 p.2 :=
  c8_order_preservation fetchOrdered 9 10 env0 (by decide) (by decide)

/-- Claim C10 (confirmed): provided the `eth_account` primitives satisfy the
sign/recover law, `sign_message` on any challenge and any non-empty key
returns the signed challenge together with the address derived from the
key, recovering the signer of the returned signature yields exactly that
address, and on an empty key file the function stops at the assertion
instead of returning. -/
theorem c10_sign_roundtrip {Addr Msg Sig : Type} [DecidableEq Addr]
    (S : SigScheme Addr Msg Sig) (hS : S.RoundTrip)
    (challenge : List Nat) (key : String) (hkey : ¬ key.length = 0) :
    sign_message S challenge key
      = .ok (S.sign key (S.encode challenge), S.addressOf key)
    ∧ (∀ sig addr, sign_message S challenge key = .ok (sig, addr) →
        S.recover (S.encode challenge) sig = addr)
    ∧ (∀ c, sign_message S c "" = .error SignError.emptyKey) := by
  have hmain : sign_message S challenge key
      = .ok (S.sign key (S.encode challenge), S.addressOf key) := by
    unfold sign_message
    rw [if_neg hkey, if_pos (hS key (S.encode challenge))]
  refine ⟨hmain, ?_, ?_⟩
  · intro sig addr h
    rw [hmain] at h
    cases h
    exact hS key (S.encode challenge)
  · intro c
    simp [sign_message]

/-- Witness for C10: the toy signing scheme on challenge `[1, 2]` with key
`"ab"`, and the empty-key case. -/
theorem c10_sign_roundtrip_witness :
    sign_message toyScheme [1, 2] "ab" = .ok (("ab", [1, 2]), "ab")
    ∧ sign_message toyScheme [1, 2] "" = .error SignError.emptyKey := by
  have h := c10_sign_roundtrip toyScheme (fun _ _ => rfl) [1, 2] "ab"
    (by decide)
  exact ⟨h.1, h.2.2 [1, 2]⟩

end Bridge
